import Mathlib

/-!
Verification of the payroll system (src/payroll_system.py).

Shallow embedding: Python floats are modelled as rationals (ℚ), Python ints
as ℤ, `dict` as an insertion-ordered association list with update-in-place
semantics, `raise ValueError` as `Except PayrollError`, and the side effects
of `process_payroll` (logger calls and payment-processor calls) as an explicit
event trace. Mutating methods become functions from the object state to the
new object state (or `Except` when they can raise).
-/

set_option autoImplicit false

namespace Payroll

/-- Error kinds of the system (raised as `ValueError` in the source):
`invalidInput` carries the source's message, `missingInput` names the hourly
employee absent from the hours map (source message
"Missing hours for hourly employee {name}."). -/
inductive PayrollError where
  | invalidInput (msg : String)
  | missingInput (name : String)
deriving DecidableEq

/-- `SalariedEmployee` state: `name`, `department`, `__monthly_salary`. -/
structure SalariedEmployee where
  name : String
  department : String
  monthly_salary : ℚ
deriving DecidableEq

/-- `SalariedEmployee.__init__`: sets salary through the validated setter. -/
def SalariedEmployee.make (name department : String) (monthly_salary : ℚ) :
    Except PayrollError SalariedEmployee :=
  if monthly_salary < 0 then
    .error (.invalidInput "monthly_salary must be a non-negative number.")
  else
    .ok ⟨name, department, monthly_salary⟩

/-- The `monthly_salary` property setter. -/
def SalariedEmployee.set_monthly_salary (e : SalariedEmployee) (value : ℚ) :
    Except PayrollError SalariedEmployee :=
  if value < 0 then
    .error (.invalidInput "monthly_salary must be a non-negative number.")
  else
    .ok { e with monthly_salary := value }

/-- `SalariedEmployee.calculate_pay`: ignores `period_hours`. -/
def SalariedEmployee.calculate_pay (e : SalariedEmployee) (_period_hours : Option ℚ) : ℚ :=
  e.monthly_salary

/-- `SalariedEmployee.apply_raise`. -/
def SalariedEmployee.apply_raise (e : SalariedEmployee) (percent : ℚ) :
    Except PayrollError SalariedEmployee :=
  let new_salary := e.monthly_salary * (1 + percent / 100)
  if new_salary < 0 then
    .error (.invalidInput "Resulting salary cannot be negative.")
  else
    .ok { e with monthly_salary := new_salary }

/-- `HourlyEmployee` state: `hourly_rate` fixed at construction,
`__overtime_multiplier` mutable (defaults to 1.5). -/
structure HourlyEmployee where
  name : String
  department : String
  hourly_rate : ℚ
  overtime_multiplier : ℚ
deriving DecidableEq

/-- `HourlyEmployee.__init__`. -/
def HourlyEmployee.make (name department : String) (hourly_rate : ℚ) :
    Except PayrollError HourlyEmployee :=
  if hourly_rate < 0 then
    .error (.invalidInput "hourly_rate must be non-negative.")
  else
    .ok ⟨name, department, hourly_rate, 3 / 2⟩

/-- `HourlyEmployee.calculate_pay`: requires a present, non-negative
`period_hours`; splits hours at 160. -/
def HourlyEmployee.calculate_pay (e : HourlyEmployee) (period_hours : Option ℚ) :
    Except PayrollError ℚ :=
  match period_hours with
  | none => .error (.invalidInput "period_hours must be provided and non-negative.")
  | some h =>
    if h < 0 then
      .error (.invalidInput "period_hours must be provided and non-negative.")
    else
      .ok (min h 160 * e.hourly_rate + max (h - 160) 0 * e.hourly_rate * e.overtime_multiplier)

/-- `HourlyEmployee.set_overtime_multiplier`. -/
def HourlyEmployee.set_overtime_multiplier (e : HourlyEmployee) (x : ℚ) :
    Except PayrollError HourlyEmployee :=
  if x < 1 then
    .error (.invalidInput "Overtime multiplier must be a number >= 1.0.")
  else
    .ok { e with overtime_multiplier := x }

/-- `Contractor` state: `daily_rate` fixed, `__days_worked` a mutable Python
int (modelled as ℤ, so non-negativity is a real invariant). -/
structure Contractor where
  name : String
  department : String
  daily_rate : ℚ
  days_worked : ℤ
deriving DecidableEq

/-- `Contractor.__init__`. -/
def Contractor.make (name department : String) (daily_rate : ℚ) :
    Except PayrollError Contractor :=
  if daily_rate < 0 then
    .error (.invalidInput "daily_rate must be non-negative.")
  else
    .ok ⟨name, department, daily_rate, 0⟩

/-- `Contractor.log_day`. -/
def Contractor.log_day (c : Contractor) : Contractor :=
  { c with days_worked := c.days_worked + 1 }

/-- `Contractor.reset_days`. -/
def Contractor.reset_days (c : Contractor) : Contractor :=
  { c with days_worked := 0 }

/-- `Contractor.calculate_pay`: ignores `period_hours`. -/
def Contractor.calculate_pay (c : Contractor) (_period_hours : Option ℚ) : ℚ :=
  c.daily_rate * (c.days_worked : ℚ)

/-- The `Employee` polymorphic hierarchy as a sum of the three variants. -/
inductive Employee where
  | salaried (e : SalariedEmployee)
  | hourly (e : HourlyEmployee)
  | contractor (e : Contractor)
deriving DecidableEq

/-- `emp.name`, shared by all variants. -/
def Employee.name : Employee → String
  | .salaried e => e.name
  | .hourly e => e.name
  | .contractor e => e.name

/-- Dynamic dispatch of `calculate_pay`. Because Python methods may in
principle mutate `self`, the embedding also returns the employee state after
the call, so that the frame property (no mutation) is a theorem rather than
an assumption. -/
def Employee.calculate_pay : Employee → Option ℚ → Except PayrollError (ℚ × Employee)
  | .salaried e, ph => .ok (e.calculate_pay ph, .salaried e)
  | .hourly e, ph => (e.calculate_pay ph).map (fun p => (p, .hourly e))
  | .contractor e, ph => .ok (e.calculate_pay ph, .contractor e)

/-- A Python `dict` with string keys and numeric values: an insertion-ordered
association list whose keys are unique by construction. -/
abbrev Dict := List (String × ℚ)

/-- `k in d`. -/
def dictContains : Dict → String → Bool
  | [], _ => false
  | p :: rest, k => if p.1 = k then true else dictContains rest k

/-- Lookup returning `none` when the key is absent. -/
def dictFind? : Dict → String → Option ℚ
  | [], _ => none
  | p :: rest, k => if p.1 = k then some p.2 else dictFind? rest k

/-- `d[k]`; only used where the source has already checked presence, so the
default 0 is never reached on the source's paths. -/
def dictGet (d : Dict) (k : String) : ℚ :=
  (dictFind? d k).getD 0

/-- `d[k] = v`: updates the value in place when the key exists (keeping its
position), otherwise appends at the end — Python dict semantics. -/
def dictInsert : Dict → String → ℚ → Dict
  | [], k, v => [(k, v)]
  | p :: rest, k, v => if p.1 = k then (k, v) :: rest else p :: dictInsert rest k v

/-- Round a rational to the nearest integer, ties to even — the documented
behaviour of Python's `round`. -/
def roundHalfEven (x : ℚ) : ℤ :=
  let f := Int.fdiv x.num (x.den : ℤ)
  let frac := x - (f : ℚ)
  if frac < 1 / 2 then f
  else if 1 / 2 < frac then f + 1
  else if f % 2 = 0 then f
  else f + 1

/-- Python's `round(x, 2)`. -/
def round2 (x : ℚ) : ℚ :=
  (roundHalfEven (x * 100) : ℚ) / 100

/-- `TaxCalculator.net`: the bracket rule. -/
def TaxCalculator.net (amount : ℚ) : ℚ :=
  if amount ≤ 3000 then amount
  else if amount ≤ 10000 then amount * (9 / 10)
  else amount * (8 / 10)

/-- `TaxCalculator.compute_net_map`: applies `net` to every entry and rounds
to 2 decimal places (a dict comprehension over `gross_map.items()`, which
preserves the entry order and the keys). -/
def TaxCalculator.compute_net_map (gross_map : Dict) : Dict :=
  gross_map.map (fun p => (p.1, round2 (TaxCalculator.net p.2)))

/-- The per-employee step of `run_payroll`'s loop: hourly employees require
an entry in the hours map (else the `ValueError` classified as
`missingInput`), all other variants are invoked with no hours argument. -/
def grossPay (period_hours_map : Dict) (emp : Employee) :
    Except PayrollError (ℚ × Employee) :=
  match emp with
  | .hourly e =>
    if dictContains period_hours_map e.name then
      Employee.calculate_pay emp (some (dictGet period_hours_map e.name))
    else
      .error (.missingInput e.name)
  | _ => Employee.calculate_pay emp none

/-- The loop of `run_payroll`, threading the `results` accumulator and the
post-call employee states. -/
def run_payroll_loop (period_hours_map : Dict) :
    List Employee → Dict → Except PayrollError (Dict × List Employee)
  | [], results => .ok (results, [])
  | emp :: rest, results =>
    match grossPay period_hours_map emp with
    | .error err => .error err
    | .ok (pay, emp2) =>
      match run_payroll_loop period_hours_map rest
          (dictInsert results emp.name (round2 pay)) with
      | .error err => .error err
      | .ok (res, emps) => .ok (res, emp2 :: emps)

/-- `run_payroll`: gross pay for each employee, rounded to 2 decimals,
accumulated into a name-keyed dict (starting empty). -/
def run_payroll (employees : List Employee) (period_hours_map : Dict) :
    Except PayrollError (Dict × List Employee) :=
  run_payroll_loop period_hours_map employees []

/-- Payment processor variants (`BankTransferProcessor` / `CashProcessor`);
they differ only in the text they print. -/
inductive PaymentProcessor where
  | bankTransfer
  | cash
deriving DecidableEq

/-- Logger variants (`Logger` prints to stdout, `FileLogger` appends to a
file at `path` with `encoding`). -/
inductive LoggerKind where
  | console
  | file (path : String) (encoding : String)
deriving DecidableEq

/-- Observable side effects of one `process_payroll` call: logger calls
(the per-employee log line kept structurally as name/gross/net) and
payment-processor calls. -/
inductive Event where
  | logMsg (message : String)
  | logPayLine (name : String) (gross net : ℚ)
  | pay (name : String) (amount : ℚ)
deriving DecidableEq

/-- Whether an event is a payment-processor invocation. -/
def Event.isPay : Event → Bool
  | .pay _ _ => true
  | _ => false

/-- `PayrollSystem.__init__` fields; the optional tax calculator is a
stateless object, modelled by presence. -/
structure PayrollSystem where
  employees : List Employee
  payment_processor : PaymentProcessor
  logger : LoggerKind
  tax_calculator : Option Unit
deriving DecidableEq

/-- `PayrollSystem.process_payroll`: returns the result (the net map, or the
propagated error), the event trace, and the post-call system state. On the
error path the trace holds only the start log; no payment was issued. -/
def PayrollSystem.process_payroll (sys : PayrollSystem) (period_hours_map : Dict) :
    Except PayrollError Dict × List Event × PayrollSystem :=
  let startEvents : List Event := [.logMsg "Running payroll..."]
  match run_payroll sys.employees period_hours_map with
  | .error err => (.error err, startEvents, sys)
  | .ok (gross_map, emps2) =>
    let net_map :=
      match sys.tax_calculator with
      | some _ => TaxCalculator.compute_net_map gross_map
      | none => gross_map
    let payEvents : List Event :=
      (sys.employees.map (fun emp =>
        [Event.logPayLine emp.name (dictGet gross_map emp.name) (dictGet net_map emp.name),
         Event.pay emp.name (dictGet net_map emp.name)])).flatten
    (.ok net_map,
     startEvents ++ payEvents ++ [.logMsg "Payroll complete."],
     { sys with employees := emps2 })

/-! ## Supporting lemmas -/

theorem log_day_iterate (c : Contractor) (n : ℕ) :
    Contractor.log_day^[n] c = { c with days_worked := c.days_worked + n } := by
  induction n with
  | zero => simp
  | succ k ih =>
    rw [Function.iterate_succ_apply', ih]
    simp [Contractor.log_day]
    ring

theorem grossPay_snd (m : Dict) (e : Employee) (p : ℚ) (e2 : Employee)
    (h : grossPay m e = .ok (p, e2)) : e2 = e := by
  cases e with
  | salaried s =>
    simp only [grossPay, Employee.calculate_pay, Except.ok.injEq, Prod.mk.injEq] at h
    exact h.2.symm
  | hourly s =>
    simp only [grossPay] at h
    split at h
    · simp only [Employee.calculate_pay] at h
      cases hc : s.calculate_pay (some (dictGet m s.name)) with
      | error err => rw [hc] at h; exact absurd h (by simp [Except.map])
      | ok v =>
        rw [hc] at h
        simp only [Except.map, Except.ok.injEq, Prod.mk.injEq] at h
        exact h.2.symm
    · exact absurd h (by simp)
  | contractor s =>
    simp only [grossPay, Employee.calculate_pay, Except.ok.injEq, Prod.mk.injEq] at h
    exact h.2.symm

/-- Inversion of one step of the `run_payroll` loop. -/
theorem run_payroll_loop_cons_ok (m : Dict) (x : Employee) (rest : List Employee)
    (acc res : Dict) (es2 : List Employee)
    (h : run_payroll_loop m (x :: rest) acc = .ok (res, es2)) :
    ∃ p e2 emps, grossPay m x = .ok (p, e2) ∧
      run_payroll_loop m rest (dictInsert acc x.name (round2 p)) = .ok (res, emps) ∧
      es2 = e2 :: emps := by
  simp only [run_payroll_loop] at h
  cases hg : grossPay m x with
  | error err => rw [hg] at h; exact absurd h (by simp)
  | ok pe =>
    obtain ⟨p, e2⟩ := pe
    rw [hg] at h
    dsimp only at h
    cases hr : run_payroll_loop m rest (dictInsert acc x.name (round2 p)) with
    | error err => rw [hr] at h; exact absurd h (by simp)
    | ok re =>
      obtain ⟨res', emps⟩ := re
      rw [hr] at h
      dsimp only at h
      simp only [Except.ok.injEq, Prod.mk.injEq] at h
      exact ⟨p, e2, emps, rfl, by rw [hr, h.1], h.2.symm⟩

theorem run_payroll_loop_snd (m : Dict) (es : List Employee) :
    ∀ acc res es2, run_payroll_loop m es acc = .ok (res, es2) → es2 = es := by
  induction es with
  | nil =>
    intro acc res es2 h
    simp only [run_payroll_loop, Except.ok.injEq, Prod.mk.injEq] at h
    exact h.2.symm
  | cons e rest ih =>
    intro acc res es2 h
    obtain ⟨p, e2, emps, hg, hr, hes⟩ := run_payroll_loop_cons_ok m e rest _ _ _ h
    rw [hes, grossPay_snd m e p e2 hg, ih _ _ _ hr]

theorem dictFind?_insert_self (d : Dict) (k : String) (v : ℚ) :
    dictFind? (dictInsert d k v) k = some v := by
  induction d with
  | nil => simp [dictInsert, dictFind?]
  | cons p rest ih =>
    by_cases hk : p.1 = k
    · simp [dictInsert, dictFind?, hk]
    · simp [dictInsert, dictFind?, hk, ih]

theorem dictFind?_insert_ne (d : Dict) (k k' : String) (v : ℚ) (h : k' ≠ k) :
    dictFind? (dictInsert d k v) k' = dictFind? d k' := by
  induction d with
  | nil => simp [dictInsert, dictFind?, Ne.symm h]
  | cons p rest ih =>
    obtain ⟨k1, v1⟩ := p
    by_cases hk : k1 = k
    · subst hk
      simp [dictInsert, dictFind?, Ne.symm h]
    · by_cases hk' : k1 = k'
      · subst hk'
        simp [dictInsert, dictFind?, hk]
      · simp [dictInsert, dictFind?, hk, hk', ih]

theorem run_payroll_loop_append (m : Dict) (xs ys : List Employee) :
    ∀ acc res es2, run_payroll_loop m (xs ++ ys) acc = .ok (res, es2) →
      ∃ acc' es3, run_payroll_loop m ys acc' = .ok (res, es3) := by
  induction xs with
  | nil => exact fun acc res es2 h => ⟨acc, es2, h⟩
  | cons x rest ih =>
    intro acc res es2 h
    rw [List.cons_append] at h
    obtain ⟨p, e2, emps, _, hr, _⟩ := run_payroll_loop_cons_ok m x (rest ++ ys) _ _ _ h
    exact ih _ _ _ hr

theorem run_payroll_loop_find_of_not_mem (m : Dict) (es : List Employee) (nm : String) :
    ∀ acc res es2, run_payroll_loop m es acc = .ok (res, es2) →
      (∀ e ∈ es, e.name ≠ nm) → dictFind? res nm = dictFind? acc nm := by
  induction es with
  | nil =>
    intro acc res es2 h _
    simp only [run_payroll_loop, Except.ok.injEq, Prod.mk.injEq] at h
    rw [← h.1]
  | cons e rest ih =>
    intro acc res es2 h hnm
    obtain ⟨p, e2, emps, hg, hr, hes⟩ := run_payroll_loop_cons_ok m e rest _ _ _ h
    rw [ih _ _ _ hr (fun x hx => hnm x (List.mem_cons_of_mem e hx)),
      dictFind?_insert_ne _ _ _ _ (Ne.symm (hnm e (List.mem_cons_self e rest)))]

theorem grossPay_ok_of_present (m : Dict) (x : Employee)
    (hx : ∀ he : HourlyEmployee, x = .hourly he →
      dictContains m he.name = true ∧ 0 ≤ dictGet m he.name) :
    ∃ p e2, grossPay m x = .ok (p, e2) := by
  cases x with
  | salaried s => exact ⟨_, _, rfl⟩
  | hourly s =>
    obtain ⟨hc, hge⟩ := hx s rfl
    exact ⟨_, _, by
      simp only [grossPay, hc, if_true, Employee.calculate_pay, HourlyEmployee.calculate_pay,
        if_neg (not_lt.mpr hge)]
      rfl⟩
  | contractor s => exact ⟨_, _, rfl⟩

theorem run_payroll_loop_missing (m : Dict) (e : HourlyEmployee) (l2 : List Employee)
    (habsent : dictContains m e.name = false) (l1 : List Employee)
    (hbefore : ∀ he : HourlyEmployee, Employee.hourly he ∈ l1 →
      dictContains m he.name = true ∧ 0 ≤ dictGet m he.name) :
    ∀ acc, run_payroll_loop m (l1 ++ Employee.hourly e :: l2) acc =
      .error (.missingInput e.name) := by
  induction l1 with
  | nil =>
    intro acc
    simp only [List.nil_append, run_payroll_loop, grossPay, habsent, Bool.false_eq_true,
      if_false]
  | cons x rest ih =>
    intro acc
    rw [List.cons_append]
    simp only [run_payroll_loop]
    obtain ⟨p, e2, hg⟩ := grossPay_ok_of_present m x
      (fun he hx => hbefore he (hx ▸ List.mem_cons_self _ _))
    rw [hg]
    dsimp only
    rw [ih (fun he hm => hbefore he (List.mem_cons_of_mem x hm))]

/-! ## Claim theorems -/

/-- C1: for every hourly rate and every overtime multiplier,
`HourlyEmployee.calculate_pay` with `period_hours ≥ 0` returns
`period_hours * hourly_rate` when `period_hours ≤ 160`, and
`160 * hourly_rate + (period_hours - 160) * hourly_rate * overtime_multiplier`
when `period_hours > 160`. -/
theorem C1_hourly_pay_formula (e : HourlyEmployee) (h : ℚ) (hh : 0 ≤ h) :
    e.calculate_pay (some h) =
      .ok (if h ≤ 160 then h * e.hourly_rate
           else 160 * e.hourly_rate + (h - 160) * e.hourly_rate * e.overtime_multiplier) := by
  simp only [HourlyEmployee.calculate_pay, not_lt.mpr hh, if_false, if_neg (not_lt.mpr hh)]
  rcases le_or_lt h 160 with hle | hgt
  · rw [if_pos hle, min_eq_left hle, max_eq_right (by linarith), zero_mul, zero_mul, add_zero]
  · rw [if_neg (not_le.mpr hgt), min_eq_right hgt.le, max_eq_left (by linarith)]

/-- Witness for C1 at the spec's end-to-end scenario: rate 80, overtime
multiplier 2, 172 hours, pay 14720. -/
theorem C1_hourly_pay_formula_witness :
    HourlyEmployee.calculate_pay ⟨"Yassine", "IT", 80, 2⟩ (some 172) = .ok 14720 := by
  have h := C1_hourly_pay_formula ⟨"Yassine", "IT", 80, 2⟩ 172 (by norm_num)
  norm_num at h
  exact h

/-- C2: `TaxCalculator.net` returns `amount` when `amount ≤ 3000`,
`amount * 0.90` when `3000 < amount ≤ 10000`, `amount * 0.80` when
`amount > 10000`; the boundary values 3000 and 10000 take the
lower-tax-rate branch. -/
theorem C2_net_brackets (a : ℚ) :
    (a ≤ 3000 → TaxCalculator.net a = a) ∧
    (3000 < a → a ≤ 10000 → TaxCalculator.net a = a * (9 / 10)) ∧
    (10000 < a → TaxCalculator.net a = a * (8 / 10)) ∧
    TaxCalculator.net 3000 = 3000 ∧ TaxCalculator.net 10000 = 9000 := by
  unfold TaxCalculator.net
  refine ⟨fun h1 => if_pos h1, fun h1 h2 => ?_, fun h1 => ?_, by norm_num, by norm_num⟩
  · rw [if_neg (not_le.mpr h1), if_pos h2]
  · rw [if_neg (by linarith), if_neg (not_le.mpr h1)]

/-- Witness for C2: the middle bracket at 5000. -/
theorem C2_net_brackets_witness : TaxCalculator.net 5000 = 4500 := by
  have h := (C2_net_brackets 5000).2.1 (by norm_num) (by norm_num)
  rw [h]; norm_num

/-- C4: `HourlyEmployee.calculate_pay` fails with the `invalidInput` error
kind exactly when the hours argument is missing or negative, and succeeds on
every non-negative hours value. -/
theorem C4_hourly_invalid_input_iff (e : HourlyEmployee) (ph : Option ℚ) :
    ((∃ msg, e.calculate_pay ph = .error (.invalidInput msg)) ↔
      ph = none ∨ ∃ h, ph = some h ∧ h < 0) ∧
    (∀ h : ℚ, 0 ≤ h → ∃ v, e.calculate_pay (some h) = .ok v) := by
  constructor
  · cases ph with
    | none => simp [HourlyEmployee.calculate_pay]
    | some h =>
      by_cases hh : h < 0
      · simp [HourlyEmployee.calculate_pay, hh]
      · simp [HourlyEmployee.calculate_pay, hh]
  · intro h hh
    exact ⟨min h 160 * e.hourly_rate + max (h - 160) 0 * e.hourly_rate * e.overtime_multiplier,
      by simp [HourlyEmployee.calculate_pay, not_lt.mpr hh]⟩

/-- Witness for C4: missing hours fail, 10 hours succeed. -/
theorem C4_hourly_invalid_input_iff_witness :
    (∃ msg, HourlyEmployee.calculate_pay ⟨"Yassine", "IT", 80, 3 / 2⟩ none =
      .error (.invalidInput msg)) ∧
    (∃ v, HourlyEmployee.calculate_pay ⟨"Yassine", "IT", 80, 3 / 2⟩ (some 10) = .ok v) :=
  ⟨(C4_hourly_invalid_input_iff ⟨"Yassine", "IT", 80, 3 / 2⟩ none).1.mpr (Or.inl rfl),
   (C4_hourly_invalid_input_iff ⟨"Yassine", "IT", 80, 3 / 2⟩ none).2 10 (by norm_num)⟩

/-- C5: for every non-negative `monthly_salary`,
`SalariedEmployee.calculate_pay` returns exactly the current salary for
every hours argument (including none). -/
theorem C5_salaried_pay (e : SalariedEmployee) (_hs : 0 ≤ e.monthly_salary) (ph : Option ℚ) :
    e.calculate_pay ph = e.monthly_salary := rfl

/-- Witness for C5: salary 12000, a supplied hours argument is ignored. -/
theorem C5_salaried_pay_witness :
    SalariedEmployee.calculate_pay ⟨"Amina", "Finance", 12000⟩ (some 5) = 12000 :=
  C5_salaried_pay ⟨"Amina", "Finance", 12000⟩ (by norm_num) (some 5)

/-- C6: a freshly constructed `Contractor`, after exactly `n` calls to
`log_day` and no `reset_days`, has `calculate_pay = n * daily_rate`; after a
`reset_days` call the pay is 0, and a subsequent `log_day` makes it
`daily_rate` again. -/
theorem C6_contractor_days (name department : String) (daily_rate : ℚ) (n : ℕ)
    (c : Contractor) (hmk : Contractor.make name department daily_rate = .ok c) :
    (Contractor.log_day^[n] c).calculate_pay none = (n : ℚ) * daily_rate ∧
    ((Contractor.log_day^[n] c).reset_days).calculate_pay none = 0 ∧
    (((Contractor.log_day^[n] c).reset_days).log_day).calculate_pay none = daily_rate := by
  unfold Contractor.make at hmk
  split at hmk
  · exact absurd hmk (by simp)
  · have hc : c = ⟨name, department, daily_rate, 0⟩ := by
      cases hmk
      rfl
    subst hc
    rw [log_day_iterate]
    refine ⟨?_, ?_, ?_⟩
    · simp [Contractor.calculate_pay]
      ring
    · simp [Contractor.reset_days, Contractor.calculate_pay]
    · simp [Contractor.reset_days, Contractor.log_day, Contractor.calculate_pay]

/-- Witness for C6: daily rate 900, 3 logged days, pay 2700; reset then one
more day. -/
theorem C6_contractor_days_witness :
    (Contractor.log_day^[3] (⟨"Laila", "Marketing", 900, 0⟩ : Contractor)).calculate_pay none =
      ((3 : ℕ) : ℚ) * 900 ∧
    ((Contractor.log_day^[3] (⟨"Laila", "Marketing", 900, 0⟩ : Contractor)).reset_days).calculate_pay
      none = 0 ∧
    (((Contractor.log_day^[3]
        (⟨"Laila", "Marketing", 900, 0⟩ : Contractor)).reset_days).log_day).calculate_pay
      none = 900 :=
  C6_contractor_days "Laila" "Marketing" 900 3 ⟨"Laila", "Marketing", 900, 0⟩
    (by norm_num [Contractor.make])

/-- C7: every mutating operation preserves the state invariants —
`monthly_salary` stays non-negative under the setter and `apply_raise` (both
fail, without mutating, when the result would be negative),
`overtime_multiplier` stays ≥ 1 under `set_overtime_multiplier`, and
`days_worked` stays ≥ 0 under `log_day` and `reset_days`. -/
theorem C7_invariants_preserved :
    (∀ (e : SalariedEmployee) (v : ℚ) (e' : SalariedEmployee),
      e.set_monthly_salary v = .ok e' → 0 ≤ e'.monthly_salary) ∧
    (∀ (e : SalariedEmployee) (v : ℚ), v < 0 →
      e.set_monthly_salary v = .error (.invalidInput "monthly_salary must be a non-negative number.")) ∧
    (∀ (e : SalariedEmployee) (p : ℚ) (e' : SalariedEmployee),
      e.apply_raise p = .ok e' → 0 ≤ e'.monthly_salary) ∧
    (∀ (e : SalariedEmployee) (p : ℚ), e.monthly_salary * (1 + p / 100) < 0 →
      e.apply_raise p = .error (.invalidInput "Resulting salary cannot be negative.")) ∧
    (∀ (e : HourlyEmployee) (x : ℚ) (e' : HourlyEmployee),
      e.set_overtime_multiplier x = .ok e' → 1 ≤ e'.overtime_multiplier) ∧
    (∀ c : Contractor, 0 ≤ c.days_worked →
      0 ≤ c.log_day.days_worked ∧ 0 ≤ c.reset_days.days_worked) := by
  refine ⟨fun e v e' h => ?_, fun e v hv => ?_, fun e p e' h => ?_, fun e p hp => ?_,
    fun e x e' h => ?_, fun c hc => ?_⟩
  · unfold SalariedEmployee.set_monthly_salary at h
    split at h
    · exact absurd h (by simp)
    · cases h
      simpa using le_of_not_lt (by assumption)
  · unfold SalariedEmployee.set_monthly_salary
    rw [if_pos hv]
  · dsimp only [SalariedEmployee.apply_raise] at h
    split at h
    · exact absurd h (by simp)
    · cases h
      simpa using le_of_not_lt (by assumption)
  · dsimp only [SalariedEmployee.apply_raise]
    rw [if_pos hp]
  · unfold HourlyEmployee.set_overtime_multiplier at h
    split at h
    · exact absurd h (by simp)
    · cases h
      simpa using le_of_not_lt (by assumption)
  · exact ⟨by simp [Contractor.log_day]; omega, by simp [Contractor.reset_days]⟩

/-- Witness for C7: a successful setter call, multiplier update and logged
day on concrete employees. -/
theorem C7_invariants_preserved_witness :
    0 ≤ ((⟨"Amina", "Finance", 5000⟩ : SalariedEmployee)).monthly_salary ∧
    1 ≤ ((⟨"Yassine", "IT", 80, 2⟩ : HourlyEmployee)).overtime_multiplier ∧
    0 ≤ ((⟨"Laila", "Marketing", 900, 0⟩ : Contractor).log_day).days_worked :=
  ⟨C7_invariants_preserved.1 ⟨"Amina", "Finance", 0⟩ 5000 ⟨"Amina", "Finance", 5000⟩
      (by norm_num [SalariedEmployee.set_monthly_salary]),
   C7_invariants_preserved.2.2.2.2.1 ⟨"Yassine", "IT", 80, 3 / 2⟩ 2 ⟨"Yassine", "IT", 80, 2⟩
      (by norm_num [HourlyEmployee.set_overtime_multiplier]),
   (C7_invariants_preserved.2.2.2.2.2 ⟨"Laila", "Marketing", 900, 0⟩ (by norm_num)).1⟩

/-- C3 counterexample: the claim says a run whose employee list contains an
hourly employee absent from the hours map fails with the `missingInput` kind
naming that employee. With employees `[A (hourly, hours mapped to -1),
B (hourly, absent)]` the run instead fails with `invalidInput` from A's
negative hours, before B's missing entry is ever consulted. -/
theorem C3_missing_hours_counterexample :
    dictContains [("A", -1)] "B" = false ∧
    (((PayrollSystem.mk [.hourly ⟨"A", "IT", 10, 3 / 2⟩, .hourly ⟨"B", "IT", 10, 3 / 2⟩]
        .cash .console none).process_payroll [("A", -1)]).1 =
      .error (.invalidInput "period_hours must be provided and non-negative.")) ∧
    (((PayrollSystem.mk [.hourly ⟨"A", "IT", 10, 3 / 2⟩, .hourly ⟨"B", "IT", 10, 3 / 2⟩]
        .cash .console none).process_payroll [("A", -1)]).1 ≠
      .error (.missingInput "B")) := by
  refine ⟨rfl, ?_, ?_⟩ <;>
    simp [PayrollSystem.process_payroll, run_payroll, run_payroll_loop, grossPay,
      Employee.calculate_pay, HourlyEmployee.calculate_pay, Employee.name, dictContains,
      dictGet, dictFind?, Except.map]

/-- C3 (amended): whenever the employee list contains an hourly employee
absent from the hours map, and every hourly employee before the first absent
one has non-negative mapped hours, `process_payroll` fails with the
`missingInput` kind naming that employee, and the payment processor is
invoked zero times in the failing run. -/
theorem C3_missing_hours_aborts (sys : PayrollSystem) (m : Dict) (l1 l2 : List Employee)
    (e : HourlyEmployee) (hsplit : sys.employees = l1 ++ Employee.hourly e :: l2)
    (habsent : dictContains m e.name = false)
    (hbefore : ∀ he : HourlyEmployee, Employee.hourly he ∈ l1 →
      dictContains m he.name = true ∧ 0 ≤ dictGet m he.name) :
    (sys.process_payroll m).1 = .error (.missingInput e.name) ∧
    ((sys.process_payroll m).2.1.filter Event.isPay) = [] := by
  have hrun : run_payroll sys.employees m = .error (.missingInput e.name) := by
    rw [hsplit]
    exact run_payroll_loop_missing m e l2 habsent l1 hbefore []
  constructor <;> simp [PayrollSystem.process_payroll, hrun, Event.isPay]

/-- Witness for the amended C3: a salaried employee followed by an hourly
employee with no entry in an empty hours map. -/
theorem C3_missing_hours_aborts_witness :
    (((PayrollSystem.mk [.salaried ⟨"S", "Finance", 100⟩, .hourly ⟨"B", "IT", 10, 3 / 2⟩]
        .cash .console none).process_payroll []).1 =
      .error (.missingInput (HourlyEmployee.mk "B" "IT" 10 (3 / 2)).name)) ∧
    ((((PayrollSystem.mk [.salaried ⟨"S", "Finance", 100⟩, .hourly ⟨"B", "IT", 10, 3 / 2⟩]
        .cash .console none).process_payroll []).2.1.filter Event.isPay) = []) :=
  C3_missing_hours_aborts _ [] [.salaried ⟨"S", "Finance", 100⟩] [] ⟨"B", "IT", 10, 3 / 2⟩
    rfl rfl (fun he hm => absurd hm (by simp))

/-- C8: when no tax calculator is configured, `process_payroll` returns
exactly the gross-pay mapping produced by the payroll runner; when one is
configured, it returns `compute_net_map` applied to that gross mapping. -/
theorem C8_tax_branch (sys : PayrollSystem) (m g : Dict) (es : List Employee)
    (hrun : run_payroll sys.employees m = .ok (g, es)) :
    (sys.tax_calculator = none → (sys.process_payroll m).1 = .ok g) ∧
    (∀ u : Unit, sys.tax_calculator = some u →
      (sys.process_payroll m).1 = .ok (TaxCalculator.compute_net_map g)) := by
  constructor
  · intro ht
    simp [PayrollSystem.process_payroll, hrun, ht]
  · intro u ht
    simp [PayrollSystem.process_payroll, hrun, ht]

/-- Witness for C8: one salaried employee, with and without a calculator. -/
theorem C8_tax_branch_witness :
    (((PayrollSystem.mk [.salaried ⟨"A", "Finance", 100⟩] .cash .console
        none).process_payroll []).1 = .ok [("A", 100)]) ∧
    (((PayrollSystem.mk [.salaried ⟨"A", "Finance", 100⟩] .cash .console
        (some ())).process_payroll []).1 = .ok (TaxCalculator.compute_net_map [("A", 100)])) := by
  constructor
  · refine (C8_tax_branch _ [] [("A", 100)] [.salaried ⟨"A", "Finance", 100⟩] ?_).1 rfl
    norm_num [run_payroll, run_payroll_loop, grossPay, Employee.calculate_pay,
      SalariedEmployee.calculate_pay, Employee.name, dictInsert, round2, roundHalfEven]
  · refine (C8_tax_branch _ [] [("A", 100)] [.salaried ⟨"A", "Finance", 100⟩] ?_).2 () rfl
    norm_num [run_payroll, run_payroll_loop, grossPay, Employee.calculate_pay,
      SalariedEmployee.calculate_pay, Employee.name, dictInsert, round2, roundHalfEven]

/-- C9: when two employees share a name, the mapping returned by the payroll
runner holds the rounded gross pay of the later entry for that name — the
later entry silently overwrites the earlier one, and duplicate names are not
an error (the runner still succeeds, as the hypothesis `hrun` and its
witness show). -/
theorem C9_duplicate_overwrite (m : Dict) (es l1 l2 : List Employee) (e : Employee)
    (res : Dict) (es' : List Employee)
    (hsplit : es = l1 ++ e :: l2)
    (_hdup : ∃ e1 ∈ l1, e1.name = e.name)
    (hlast : ∀ e2 ∈ l2, e2.name ≠ e.name)
    (hrun : run_payroll es m = .ok (res, es')) :
    ∃ p e2, grossPay m e = .ok (p, e2) ∧ dictFind? res e.name = some (round2 p) := by
  subst hsplit
  have hrun' : run_payroll_loop m (l1 ++ e :: l2) [] = .ok (res, es') := hrun
  obtain ⟨acc', es3, h3⟩ := run_payroll_loop_append m l1 (e :: l2) [] res es' hrun'
  obtain ⟨p, e2, emps, hg, hr, _⟩ := run_payroll_loop_cons_ok m e l2 acc' res es3 h3
  refine ⟨p, e2, hg, ?_⟩
  rw [run_payroll_loop_find_of_not_mem m l2 e.name _ _ _ hr hlast, dictFind?_insert_self]

/-- Witness for C9: two salaried employees both named A; the run succeeds
and the result maps A to the later entry's pay 200. -/
theorem C9_duplicate_overwrite_witness :
    ∃ p e2, grossPay [] (.salaried ⟨"A", "Finance", 200⟩) = .ok (p, e2) ∧
      dictFind? [("A", 200)] (Employee.name (.salaried ⟨"A", "Finance", 200⟩)) =
        some (round2 p) := by
  refine C9_duplicate_overwrite [] _ [.salaried ⟨"A", "Finance", 100⟩] []
    (.salaried ⟨"A", "Finance", 200⟩) [("A", 200)]
    [.salaried ⟨"A", "Finance", 100⟩, .salaried ⟨"A", "Finance", 200⟩] rfl
    ⟨.salaried ⟨"A", "Finance", 100⟩, by simp, rfl⟩ (by simp) ?_
  norm_num [run_payroll, run_payroll_loop, grossPay, Employee.calculate_pay,
    SalariedEmployee.calculate_pay, Employee.name, dictInsert, round2, roundHalfEven]

/-- C10: `process_payroll` (and the payroll runner inside it) leaves all
employee state unchanged — the post-call system equals the pre-call system —
so a second call on the post-call state returns exactly the same result. The
inputs are values in the embedding, so the period-hours mapping cannot be
modified. -/
theorem C10_no_state_change (sys : PayrollSystem) (m : Dict) :
    (sys.process_payroll m).2.2 = sys ∧
    ((sys.process_payroll m).2.2).process_payroll m = sys.process_payroll m := by
  have h1 : (sys.process_payroll m).2.2 = sys := by
    cases hrun : run_payroll sys.employees m with
    | error err => simp [PayrollSystem.process_payroll, hrun]
    | ok ge =>
      obtain ⟨g, es2⟩ := ge
      have hrun' : run_payroll_loop m sys.employees [] = .ok (g, es2) := hrun
      have hes : es2 = sys.employees := run_payroll_loop_snd m sys.employees [] g es2 hrun'
      simp [PayrollSystem.process_payroll, hrun, hes]
  exact ⟨h1, by rw [h1]⟩

end Payroll
